import Mathlib

/-!
Verification of the cdisc_builder domain assembly engine.

This file gives a shallow embedding of the engine's core components:

* the long-format record store (one row per captured data point),
* the pivot strategy processor (engine/classes/general.py, GeneralProcessor),
* the finding strategy processor (engine/classes/finding.py, FindingProcessor),
* the functional strategy processor (engine/classes/findings.py, FindingsProcessor),
* the post-assembly sequence-number generator (engine/processor.py, process_domain),

and proves the spec's claims about them.  Data frames are modelled as a
list of association-list rows together with an explicit column list; a cell
is either a null (pandas NaN / Python None), a string, an integer or a
boolean.  Floating point numerics do not occur in any verified claim and
are modelled by integers where the code coerces with pd.to_numeric.
-/

/-- A single cell of a data frame.  `null` models both pandas NaN and
Python None. -/
inductive Cell where
  | null : Cell
  | str : String → Cell
  | int : Int → Cell
  | bool : Bool → Cell
deriving DecidableEq

/-- Python truthiness of a cell value, as used by `if literal:` style tests
in the source.  None, "" , 0 and False are falsy. -/
def Cell.truthy : Cell → Bool
  | .null => false
  | .str s => s ≠ ""
  | .int n => n ≠ 0
  | .bool b => b

/-- Rendering used by pandas `series.astype(str)`.  A missing value renders
as the literal text "nan" (numpy NaN rendering; the engine's own
missing-value check looks for both "nan" and "None"). -/
def Cell.toStr : Cell → String
  | .null => "nan"
  | .str s => s
  | .int n => toString n
  | .bool b => if b then "True" else "False"

/-- One data-frame row: an association list from column name to cell. -/
abbrev Row := List (String × Cell)

/-- Reading a cell from a row; a column absent from the row reads as null,
mirroring how pandas fills unaligned columns with NaN. -/
def getCell (r : Row) (c : String) : Cell := (r.lookup c).getD Cell.null

/-- Setting a column of a row: replace the first binding of the name, or
append a new binding. -/
def setCol : Row → String → Cell → Row
  | [], c, v => [(c, v)]
  | (c', v') :: rest, c, v =>
      if c' = c then (c, v) :: rest else (c', v') :: setCol rest c v

/-- A data frame: an explicit column list plus the rows. -/
structure DF where
  cols : List String
  rows : List Row
deriving DecidableEq

/-- The empty data frame (pd.DataFrame()). -/
def DF.empty : DF := ⟨[], []⟩

/-- A whole column of a frame, as a list of cells in row order. -/
def DF.col (df : DF) (c : String) : List Cell := df.rows.map (fun r => getCell r c)

/-- Assigning a series to a data-frame column (df[c] = series).  The series
is positionally aligned with the rows, as all series built by the engine
share the frame's default integer index. -/
def setDFCol (df : DF) (c : String) (vals : List Cell) : DF :=
  { cols := if df.cols.contains c then df.cols else df.cols ++ [c],
    rows := (df.rows.zip vals).map (fun p => setCol p.1 c p.2) }

/-- The tuple of values of the given columns of a row, used as a group /
join / sort key. -/
def keyOf (cols : List String) (r : Row) : List Cell := cols.map (getCell r)

/-- One long-format observation, the record shape produced by the external
ODM extractor (odm.py): full identifying key path plus an item identifier
and a value. -/
structure Obs where
  StudyOID : String
  SubjectKey : String
  StudyEventOID : String
  FormOID : String
  ItemGroupOID : String
  ItemGroupRepeatKey : String
  ItemOID : String
  Value : Cell
deriving DecidableEq

/-- Column access on an observation, by column name of the long frame. -/
def Obs.get (o : Obs) (c : String) : Cell :=
  match c with
  | "StudyOID" => .str o.StudyOID
  | "SubjectKey" => .str o.SubjectKey
  | "StudyEventOID" => .str o.StudyEventOID
  | "FormOID" => .str o.FormOID
  | "ItemGroupOID" => .str o.ItemGroupOID
  | "ItemGroupRepeatKey" => .str o.ItemGroupRepeatKey
  | "ItemOID" => .str o.ItemOID
  | "Value" => o.Value
  | _ => .null

/-- The column schema of the long record frame (df_long.columns). -/
def obsColumns : List String :=
  ["StudyOID", "SubjectKey", "StudyEventOID", "FormOID", "ItemGroupOID",
   "ItemGroupRepeatKey", "ItemOID", "Value"]

/-- Lexicographic ≤ on character lists, structurally recursive so that
concrete evaluations reduce in the kernel. -/
def charListLe : List Char → List Char → Bool
  | [], _ => true
  | _ :: _, [] => false
  | a :: as, b :: bs => if a = b then charListLe as bs else decide (a < b)

/-- Lexicographic ≤ on strings. -/
def strLe (s t : String) : Bool := charListLe s.data t.data

/-- Whether pat is a prefix of the list. -/
def listIsPrefix [DecidableEq α] : List α → List α → Bool
  | [], _ => true
  | _ :: _, [] => false
  | p :: ps, x :: xs => if p = x then listIsPrefix ps xs else false

/-- Whether pat occurs as a contiguous sublist. -/
def listContainsSub [DecidableEq α] (l pat : List α) : Bool :=
  match l with
  | [] => pat.isEmpty
  | _ :: xs => listIsPrefix pat l || listContainsSub xs pat

/-- Python substring containment (pat in s). -/
def containsStr (s pat : String) : Bool := listContainsSub s.data pat.data

/-- str.startswith / an anchored match at the start of a string. -/
def strStartsWith (s pat : String) : Bool := listIsPrefix pat.data s.data

/-- str.endswith. -/
def strEndsWith (s pat : String) : Bool :=
  listIsPrefix pat.data.reverse s.data.reverse

/-- The natural number denoted by a digit string, if every character is a
digit. -/
def digitsToNat? : List Char → Option Nat
  | [] => none
  | ds => go ds 0
where
  go : List Char → Nat → Option Nat
    | [], acc => some acc
    | c :: cs, acc =>
        if c.isDigit then go cs (acc * 10 + (c.toNat - 48)) else none

/-- Integer parsing of a decimal string (the integer fragment of
pd.to_numeric). -/
def strToInt? (s : String) : Option Int :=
  match s.data with
  | '-' :: rest => (digitsToNat? rest).map (fun n => -(n : Int))
  | ds => (digitsToNat? ds).map (fun n => (n : Int))

/-- Deduplication keeping the first occurrence of each element, in order of
first appearance. -/
def dedupFirstAux [DecidableEq α] (seen : List α) : List α → List α
  | [] => []
  | x :: xs =>
      if seen.contains x then dedupFirstAux seen xs
      else x :: dedupFirstAux (x :: seen) xs

/-- Deduplication keeping first occurrences. -/
def dedupFirst [DecidableEq α] (l : List α) : List α := dedupFirstAux [] l

/-- Insert an element into a sorted list after every element that is ≤ it,
so that a fold over the input produces a stable sort. -/
def insSorted (le : α → α → Bool) (x : α) : List α → List α
  | [] => [x]
  | y :: ys => if le y x then y :: insSorted le x ys else x :: y :: ys

/-- Stable insertion sort.  pandas sort_values uses quicksort whose tie
order is implementation defined; the embedding fixes the stable order (ties
keep original row order), which agrees with the source on all inputs whose
sort keys are distinct. -/
def sortStable (le : α → α → Bool) (l : List α) : List α :=
  l.foldl (fun acc x => insSorted le x acc) []

/-- A total comparison on cells: within a constructor the natural order,
across constructors a fixed rank with null greatest (pandas sorts NaN
last).  Engine columns are homogeneously typed, so the cross-constructor
case only orders nulls. -/
def cellRank : Cell → Nat
  | .bool _ => 0
  | .int _ => 1
  | .str _ => 2
  | .null => 3

/-- Boolean ≤ on cells. -/
def cellLe (a b : Cell) : Bool :=
  match a, b with
  | .bool x, .bool y => !x || y
  | .int x, .int y => decide (x ≤ y)
  | .str x, .str y => strLe x y
  | _, _ => decide (cellRank a ≤ cellRank b)

/-- Lexicographic ≤ on key tuples. -/
def keysLe : List Cell → List Cell → Bool
  | [], _ => true
  | _ :: _, [] => false
  | a :: as, b :: bs => if a = b then keysLe as bs else cellLe a b

/-- groupby(...).cumcount() over a sequence of group keys: each position
gets the number of earlier positions holding the same key.  A key tuple
containing a null is excluded from grouping (pandas groupby dropna) and
gets no count. -/
def cumcounts (seen : List (List Cell)) : List (List Cell) → List (Option Nat)
  | [] => []
  | k :: rest =>
      (if k.contains Cell.null then none else some (seen.count k))
        :: cumcounts (k :: seen) rest

/-- The sequence value scattered back to an original row position: the
group cumcount of that position plus one, or null for positions pandas
excluded from grouping. -/
def seqCellOf (asg : List (Nat × Option Nat)) (i : Nat) : Cell :=
  match asg.lookup i with
  | some (some c) => Cell.int ((c : Int) + 1)
  | some none => Cell.null
  | none => Cell.null

/-- The sequence assignments of one request (engine/processor.py lines
58-74): rows are tagged with their original positions, sorted by the sort
keys, given per-group cumcounts in sorted order, and each original
position is paired with its count. -/
def seqAssignments (rows : List Row) (group sortKeys : List String) :
    List (Nat × Option Nat) :=
  let sorted := sortStable
    (fun p q => keysLe (keyOf sortKeys p.2) (keyOf sortKeys q.2)) rows.enum
  (sorted.map Prod.fst).zip (cumcounts [] (sorted.map (fun p => keyOf group p.2)))

/-- One global sequence request (engine/processor.py lines 47-74): if any
grouping column is absent from the assembled table, warn and leave the
table unchanged; otherwise sort by the grouping columns plus the sort
columns (the latter only when configured and fully present), cumcount
within each group, add one, and scatter the values back to the original
row positions under the target column name.  Returns the table plus the
emitted warnings. -/
def applySeqRequest (df : DF) (target : String) (group sortBy : List String) :
    DF × List String :=
  let missing := group.filter (fun c => !df.cols.contains c)
  if missing.isEmpty then
    let sortKeys :=
      if !sortBy.isEmpty && sortBy.all (fun c => df.cols.contains c)
      then group ++ sortBy else group
    let asg := seqAssignments df.rows group sortKeys
    ({ cols := if df.cols.contains target then df.cols else df.cols ++ [target],
       rows := df.rows.enum.map (fun p => setCol p.2 target (seqCellOf asg p.1)) }, [])
  else (df, ["Warning: Group cols missing for GLOBAL SEQ " ++ target])

/-! ## Pivot strategy processor (engine/classes/general.py) -/

/-- pivot_table(index=keys, columns=ItemOID, values=Value, aggfunc=first):
one row per distinct key tuple (sorted, as pandas sorts the pivot index),
one column per distinct item identifier (sorted), each cell holding the
first non-null value among the records of that (key, item) pair. -/
def firstNonNull : List Cell → Cell
  | [] => .null
  | .null :: rest => firstNonNull rest
  | c :: _ => c

/-- The pivoted wide table of a set of records over the given key columns. -/
def pivotTable (recs : List Obs) (keys : List String) : DF :=
  let keyTuples := sortStable keysLe (dedupFirst (recs.map (fun o => keys.map o.get)))
  let items := sortStable (fun a b => cellLe (.str a) (.str b))
    (dedupFirst (recs.map (fun o => o.ItemOID)))
  { cols := keys ++ items,
    rows := keyTuples.map (fun kt =>
      (keys.zip kt) ++ items.map (fun it =>
        (it, firstNonNull ((recs.filter (fun o =>
          decide (keys.map o.get = kt) && decide (o.ItemOID = it))).map (fun o => o.Value))))) }

/-- A structured column definition of the pivot strategy (the dict form of
a column config in general.py).  The field named "prefix" in the source is
called prefixVal here. -/
structure GColDef where
  source : Option String := none
  literal : Option Cell := none
  targetType : Option String := none
  valueMapping : List (String × Cell) := []
  mappingDefault : Option Cell := none
  mappingDefaultSource : Option String := none
  substringStart : Option Nat := none
  substringLength : Option Nat := none
  prefixVal : Option String := none
  maxMissingPct : Option Nat := none
  group : List String := []
  sortBy : List String := []
deriving DecidableEq

/-- A column config: either the plain source-expression shorthand string,
or a structured definition. -/
inductive GCfg where
  | src : String → GCfg
  | full : GColDef → GCfg
deriving DecidableEq

/-- The structured view of a config (general.py lines 50-57): a shorthand
string carries only a source expression. -/
def GCfg.def : GCfg → GColDef
  | .src s => { source := some s }
  | .full d => d

/-- Whether a config is the structured dict form (isinstance(col_config, dict)),
which gates the substring / mapping-default / prefix / validation steps. -/
def GCfg.isDict : GCfg → Bool
  | .src _ => false
  | .full _ => true

/-- Python truthiness of an optional source expression string. -/
def srcTruthy : Option String → Bool
  | some s => s ≠ ""
  | none => false

/-- Base series extraction of the pivot strategy (general.py lines 59-75):
a literal broadcasts; else the source expression is looked up in the
pivoted table, then in the already-resolved target columns; an unresolved
source, or a config with neither source nor literal, yields an all-null
series plus a warning. -/
def extractBase (domainName targetCol : String) (pivoted finalDF : DF)
    (src : Option String) (lit : Option Cell) : List Cell × List String :=
  let n := pivoted.rows.length
  match lit with
  | some l => (List.replicate n l, [])
  | none =>
      if srcTruthy src then
        let s := src.getD ""
        if pivoted.cols.contains s then (pivoted.col s, [])
        else if finalDF.cols.contains s then (finalDF.col s, [])
        else (List.replicate n Cell.null,
          ["Warning: Source column " ++ s ++ " not found for " ++ domainName
            ++ "." ++ targetCol ++ ". Filling with NaN."])
      else (List.replicate n Cell.null,
        ["Warning: No source or literal defined for " ++ domainName
          ++ "." ++ targetCol ++ ". Filling with NaN."])

/-- Substring extraction (general.py lines 77-88): when both a 0-based
start and a length are configured, cast to string and slice. -/
def applySubstring (cfg : GCfg) (series : List Cell) : List Cell :=
  if cfg.isDict then
    match cfg.def.substringStart, cfg.def.substringLength with
    | some a, some len =>
        series.map (fun c => Cell.str ⟨((Cell.toStr c).data.drop a).take len⟩)
    | _, _ => series
  else series

/-- series.map(dict): a string cell found among the mapping keys becomes
the mapped value; every other cell (unknown string, non-string, null)
becomes null. -/
def mapCell (vm : List (String × Cell)) : Cell → Cell
  | .str s => ((vm.lookup s).getD Cell.null)
  | _ => .null

/-- fillna against a fallback series, positionally aligned. -/
def fillnaWith (series fallback : List Cell) : List Cell :=
  (series.zip fallback).map (fun p => if p.1 = Cell.null then p.2 else p.1)

/-- The value-mapping step (general.py lines 90-116).  With a default
literal, unmapped values fall back to it (strict mode); with a default
source, they fall back to that column when it resolves (else a warning and
the nulls remain); with neither, series.replace keeps unmapped values
unchanged (partial mode).  An empty mapping is falsy and skips the step. -/
def applyValueMapping (domainName targetCol : String)
    (vm : List (String × Cell)) (mappingDefault : Option Cell)
    (mappingDefaultSource : Option String) (pivoted finalDF : DF)
    (series : List Cell) : List Cell × List String :=
  if vm.isEmpty then (series, [])
  else
    let mapped := series.map (mapCell vm)
    match mappingDefault with
    | some d => (mapped.map (fun c => if c = Cell.null then d else c), [])
    | none =>
        match mappingDefaultSource with
        | some sdef =>
            if finalDF.cols.contains sdef then (fillnaWith mapped (finalDF.col sdef), [])
            else if pivoted.cols.contains sdef then (fillnaWith mapped (pivoted.col sdef), [])
            else (mapped, ["Warning: Default source " ++ sdef ++ " not found for "
              ++ domainName ++ "." ++ targetCol])
        | none =>
            (series.map (fun c =>
              match c with
              | .str s => (vm.lookup s).getD c
              | _ => c), [])

/-- Prefix concatenation (general.py lines 118-121): a truthy prefix is
prepended to the string rendering of every cell. -/
def applyPrefixStep (cfg : GCfg) (series : List Cell) : List Cell :=
  match (if cfg.isDict then cfg.def.prefixVal else none) with
  | some p => if p ≠ "" then series.map (fun c => Cell.str (p ++ Cell.toStr c)) else series
  | none => series

/-- pd.to_numeric(errors=coerce): integers stay, booleans coerce to 0/1,
integer-valued strings parse, everything else becomes null.  Fractional
values do not occur in any verified claim and are not modelled. -/
def toNumericCell : Cell → Cell
  | .int n => .int n
  | .bool b => .int (if b then 1 else 0)
  | .str s => match strToInt? s with | some n => .int n | none => .null
  | .null => .null

/-- Python bool() of a cell as applied by series.astype(bool); note pandas
maps NaN to True there. -/
def cellPyBool : Cell → Bool
  | .null => true
  | .str s => s ≠ ""
  | .int n => n ≠ 0
  | .bool b => b

/-- Type coercion (general.py lines 123-135). -/
def applyTypeConv (targetType : Option String) (series : List Cell) : List Cell :=
  match targetType with
  | some "int" => series.map toNumericCell
  | some "float" => series.map toNumericCell
  | some "str" => series.map (fun c => Cell.str c.toStr)
  | some "bool" => series.map (fun c => Cell.bool (cellPyBool c))
  | _ => series

/-- The missing-value validation (general.py lines 139-151): count nulls
(plus "nan" / "None" text for string-typed columns) and warn when the
percentage exceeds the configured threshold.  The comparison
missing / total * 100 > limit is taken exactly over the integers. -/
def maxMissingWarnings (domainName targetCol : String) (cfg : GCfg)
    (series : List Cell) : List String :=
  if cfg.isDict then
    match cfg.def.maxMissingPct with
    | none => []
    | some m =>
        let missing := series.countP (fun c => c = Cell.null)
          + (if cfg.def.targetType = some "str" then
               series.countP (fun c => c = Cell.str "nan" || c = Cell.str "None")
             else 0)
        let total := series.length
        if total > 0 && missing * 100 > m * total then
          ["WARNING: [Validation] " ++ domainName ++ "." ++ targetCol
            ++ " missing values exceed the configured limit"]
        else []
  else []

/-- Resolution of one target column of a pivot-strategy block (general.py
lines 43-151): base extraction, then substring, value mapping, prefix and
type coercion, then the missing-value validation on the finished series. -/
def resolveSeries (domainName : String) (pivoted finalDF : DF)
    (targetCol : String) (cfg : GCfg) : List Cell × List String :=
  let d := cfg.def
  let base := extractBase domainName targetCol pivoted finalDF d.source d.literal
  let s1 := applySubstring cfg base.1
  let s2 := applyValueMapping domainName targetCol d.valueMapping
    (if cfg.isDict then d.mappingDefault else none)
    (if cfg.isDict then d.mappingDefaultSource else none) pivoted finalDF s1
  let s3 := applyPrefixStep cfg s2.1
  let s4 := applyTypeConv d.targetType s3
  (s4, base.2 ++ s2.2 ++ maxMissingWarnings domainName targetCol cfg s4)

/-- One block of a pivot-strategy mapping specification. -/
structure GBlock where
  formoid : Option String := none
  keys : Option (List String) := none
  columns : List (String × GCfg) := []
deriving DecidableEq

/-- Processing of one pivot-strategy block (general.py lines 7-153):
filter the records by the mandatory form identifier (no form, or an empty
filtered set, or a pivot failure from an unknown key column, skips the
block — result none); pivot; then resolve every declared target column in
order, later columns seeing the earlier ones.  Returns the block's partial
table and its warnings. -/
def GeneralProcessor.processBlock (domainName : String) (settings : GBlock)
    (dfLong : List Obs) (defaultKeys : List String) : Option (DF × List String) :=
  match settings.formoid with
  | none => none
  | some fo =>
      let sourceDf := dfLong.filter (fun o => o.FormOID = fo)
      if sourceDf.isEmpty then none
      else
        let keys := settings.keys.getD defaultKeys
        if keys.all (fun k => obsColumns.contains k) then
          let pivoted := pivotTable sourceDf keys
          some (settings.columns.foldl
            (fun (st : DF × List String) tc =>
              let res := resolveSeries domainName pivoted st.1 tc.1 tc.2
              (setDFCol st.1 tc.1 res.1, st.2 ++ res.2))
            (⟨[], List.replicate pivoted.rows.length []⟩, []))
        else none

/-! ## Functional strategy processor (engine/classes/findings.py) -/

/-- Whether two rows agree on all join-key columns (pandas merge also
matches nulls with nulls). -/
def sameKey (ks : List String) (a b : Row) : Bool := decide (keyOf ks a = keyOf ks b)

/-- Dropping the given columns from a row. -/
def stripCols (cs : List String) (r : Row) : Row := r.filter (fun p => !cs.contains p.1)

/-- The merge contribution of one left row: paired with each matching
right row, or kept alone when unmatched (its right-only columns then read
as null). -/
def mergeRowMatches (ks : List String) (r : List Row) (a : Row) : List Row :=
  let ms := r.filter (fun b => sameKey ks a b)
  if ms.isEmpty then [a] else ms.map (fun b => a ++ stripCols ks b)

/-- Row part of pd.merge(l, r, on=ks, how=outer): every left row is paired
with each matching right row (or kept alone when unmatched), and unmatched
right rows are appended. -/
def mergeOuterRows (ks : List String) (l r : List Row) : List Row :=
  (l.flatMap (mergeRowMatches ks r))
    ++ r.filter (fun b => !(l.any (fun a => sameKey ks a b)))

/-- pd.merge(l, r, on=ks, how=outer).  The non-key columns of the two
frames are disjoint in every merge the engine performs, so the suffixing
of overlapping columns is not modelled. -/
def DF.mergeOuter (ks : List String) (l r : DF) : DF :=
  { cols := l.cols ++ r.cols.filter (fun c => !ks.contains c && !l.cols.contains c),
    rows := mergeOuterRows ks l.rows r.rows }

/-- pd.merge(l, r, on=ks, how=left): every left row paired with its
matching right rows, or kept alone when unmatched. -/
def DF.mergeLeft (ks : List String) (l r : DF) : DF :=
  { cols := l.cols ++ r.cols.filter (fun c => !ks.contains c && !l.cols.contains c),
    rows := l.rows.flatMap (mergeRowMatches ks r.rows) }

/-- Renaming a column of a frame (df.rename(columns=...)). -/
def DF.rename (df : DF) (old new : String) : DF :=
  { cols := df.cols.map (fun c => if c = old then new else c),
    rows := df.rows.map (fun r => r.map (fun p => if p.1 = old then (new, p.2) else p)) }

/-- Modelled from the spec: the generating function extract_value lives in
the engine's functions module (cdiscbuilder/engine/functions.py), which is
not under src/; per specification section 4.2 step 2 it extracts the
records matching the form and item filters and yields one row per matching
record, projected to the requested key columns plus the return column. -/
def extract_value (recs : List Obs) (formOids itemOids : List String)
    (returnCol : String) (keys : List String) : DF :=
  { cols := keys ++ [returnCol],
    rows := (recs.filter (fun o =>
        (formOids.isEmpty || formOids.contains o.FormOID)
          && itemOids.contains o.ItemOID)).map
      (fun o => keys.map (fun k => (k, o.get k)) ++ [(returnCol, o.get returnCol)]) }

/-- A column definition of the functional strategy (one entry of the
columns list in findings.py).  A scalar itemoid in the configuration is
the singleton list here; only a genuine list of more than one item makes
the is_list classification true, matching the source's isinstance test. -/
structure FColDef where
  name : String
  func : Option String := none
  formoid : List String := []
  itemoid : List String := []
  colType : String := "str"
  source : Option String := none
  literal : Option Cell := none
  label : Option String := none
deriving DecidableEq

/-- The result column extract_value is asked for (findings.py lines
113-115): the item identifier for the four known test-code targets, the
captured value otherwise. -/
def colReturnCol (name : String) : String :=
  if name = "FATESTCD" || name = "LBTESTCD" || name = "VSTESTCD" || name = "QSTESTCD"
  then "ItemOID" else "Value"

/-- The topic/result naming heuristic (findings.py line 137). -/
def isResultName (n : String) : Bool :=
  containsStr n "ORRES" || containsStr n "STRES" || containsStr n "STAT"
    || containsStr n "REASND" || containsStr n "TERM" || containsStr n "DECOD"
    || containsStr n "VISIT" || containsStr n "DTC"

/-- Backbone classification of a target name (findings.py line 138). -/
def isBackboneName (n : String) : Bool :=
  strEndsWith n "TESTCD" || isResultName n || strEndsWith n "OBJ"

/-- The join keys of a functional block (findings.py lines 54-56): the
declared keys plus FormOID, which is always present in the long frame. -/
def blockJoinKeys (configKeys : List String) : List String :=
  if configKeys.contains "FormOID" then configKeys else configKeys ++ ["FormOID"]

/-- The generated table of one column definition: extract_value filtered
by the definition's forms and items, with the result column renamed to the
target name (findings.py lines 118-130). -/
def backboneDfRes (dfLong : List Obs) (joinKeys : List String) (cd : FColDef) : DF :=
  (extract_value dfLong cd.formoid cd.itemoid (colReturnCol cd.name) joinKeys).rename
    (colReturnCol cd.name) cd.name

/-- One merge of a generated backbone table into the primary frame
(findings.py lines 177-182 and 190-194): the first backbone table becomes
the primary frame, later ones are outer-merged on the join keys. -/
def mergeBackboneStep (ks : List String) (primary d : DF) : DF :=
  if primary.rows.isEmpty then d else DF.mergeOuter ks primary d

/-- One iteration of the functional strategy's column loop (findings.py
lines 90-196) over the state (primary frame, attribute frames).  A
definition without a recognised generating function is deferred; an empty
generated table is skipped with a warning; a backbone-classified column is
merged into the primary frame and any other generated column is collected
as an attribute.  The source also builds a variant of the generated table
keyed by the join keys plus ItemOID (df_res_with_id) inside the is_list
branch, but the merge below uses the plain df_res on the join keys alone;
the unused variant is therefore not modelled, and the is_list and
single-item branches of the source perform the same merge. -/
def backboneStep (dfLong : List Obs) (joinKeys : List String)
    (st : DF × List DF) (cd : FColDef) : DF × List DF :=
  match cd.func with
  | none => st
  | some f =>
      if f = "func_fa" || f = "extract_value" then
        let dfRes := backboneDfRes dfLong joinKeys cd
        if dfRes.rows.isEmpty then st
        else
          let isList := decide (cd.itemoid.length > 1) && isBackboneName cd.name
          if isList then
            if isBackboneName cd.name then (mergeBackboneStep joinKeys st.1 dfRes, st.2)
            else (st.1, st.2 ++ [dfRes])
          else
            if isBackboneName cd.name then (mergeBackboneStep joinKeys st.1 dfRes, st.2)
            else (st.1, st.2 ++ [dfRes])
      else st

/-- The backbone construction of one functional block: the column loop
folded over all column definitions, yielding the merged primary frame and
the collected attribute frames. -/
def buildBackbone (dfLong : List Obs) (joinKeys : List String)
    (cols : List FColDef) : DF × List DF :=
  cols.foldl (backboneStep dfLong joinKeys) (DF.empty, [])

/-- Attribute broadcast (findings.py lines 199-204): each attribute frame
is left-joined onto the primary frame on the join keys only. -/
def joinAttributes (joinKeys : List String) (primary : DF) (attrs : List DF) : DF :=
  attrs.foldl (fun acc att => DF.mergeLeft joinKeys acc att) primary

/-- One entry of the external test-code metadata table. -/
structure MetaEntry where
  test : Option String := none
  obj : Option String := none
deriving DecidableEq

/-- metadata.get(x, dict()).get("test", x): a string test code found in the
metadata maps to its descriptive label, anything else defaults to the code
itself. -/
def metaTest (md : List (String × MetaEntry)) (x : Cell) : Cell :=
  match x with
  | .str s =>
      match md.lookup s with
      | some e => match e.test with | some t => .str t | none => x
      | none => x
  | _ => x

/-- metadata.get(x, dict()).get("obj", None): defaulting to null. -/
def metaObj (md : List (String × MetaEntry)) (x : Cell) : Cell :=
  match x with
  | .str s =>
      match md.lookup s with
      | some e => match e.obj with | some t => .str t | none => .null
      | none => .null
  | _ => .null

/-- Python truthiness of the optional literal (findings.py line 224 tests
`if literal:`, so None, "", 0 and False all fall through). -/
def litTruthy : Option Cell → Bool
  | some c => c.truthy
  | none => false

/-- The remaining-column series of the functional strategy (findings.py
lines 219-250): a truthy literal broadcasts; else the built-in defaults
(study, subject, sequence placeholder, domain literal) and the metadata
lookups apply; an unmatched name falls back to an all-null series; a
matched name whose backing column is absent yields no series at all (the
column is then left unassigned, as in the source). -/
def step4Series (domainName : String) (metadata : List (String × MetaEntry))
    (keys : List String) (finalDF : DF) (cd : FColDef) : Option (List Cell) :=
  let n := finalDF.rows.length
  if litTruthy cd.literal then some (List.replicate n (cd.literal.getD Cell.null))
  else if cd.name = "STUDYID" && keys.contains "StudyOID" then
    (if finalDF.cols.contains "StudyOID" then some (finalDF.col "StudyOID") else none)
  else if cd.name = "USUBJID" then
    (if finalDF.cols.contains "StudySubjectID" then some (finalDF.col "StudySubjectID")
     else if finalDF.cols.contains "SubjectKey" then some (finalDF.col "SubjectKey")
     else none)
  else if cd.name = "FASEQ" && keys.contains "ItemGroupRepeatKey" then
    (if finalDF.cols.contains "ItemGroupRepeatKey"
     then some (finalDF.col "ItemGroupRepeatKey") else none)
  else if cd.name = "DOMAIN" then some (List.replicate n (Cell.str domainName))
  else if cd.name = "FATEST" && finalDF.cols.contains "FATESTCD" then
    some ((finalDF.col "FATESTCD").map (metaTest metadata))
  else if cd.name = "FAOBJ" && finalDF.cols.contains "FATESTCD" then
    some ((finalDF.col "FATESTCD").map (metaObj metadata))
  else some (List.replicate n Cell.null)

/-- String cleanup of the functional strategy's type enforcement
(findings.py line 262): cast to string, then collapse the "nan" and "None"
artifacts back to true nulls. -/
def stringCleanup (c : Cell) : Cell :=
  let s := Cell.toStr c
  if s = "nan" || s = "None" then Cell.null else Cell.str s

/-- Type enforcement of one functional-strategy column (findings.py lines
255-262): numeric types coerce null-on-failure, all other columns
normalize to cleaned strings. -/
def enforceColType (colType : String) (series : List Cell) : List Cell :=
  if colType = "int" then series.map toNumericCell
  else if colType = "float" then series.map toNumericCell
  else series.map stringCleanup

/-- The remaining-column pass for a single definition (findings.py lines
207-262): keep a function-populated column with no source override, copy
from a present source column, otherwise install the step-4 series if one
was produced; then enforce the declared type on the target column.  The
source indexes final_df by the target name unconditionally in the type
enforcement, which raises when step 4 produced no series; the guard below
models only the non-raising executions, which are the only ones any claim
exercises. -/
def resolveRemainingCol (domainName : String) (metadata : List (String × MetaEntry))
    (keys : List String) (finalDF : DF) (cd : FColDef) : DF :=
  let populated :=
    if finalDF.cols.contains cd.name && !srcTruthy cd.source then finalDF
    else if srcTruthy cd.source && finalDF.cols.contains (cd.source.getD "") then
      setDFCol finalDF cd.name (finalDF.col (cd.source.getD ""))
    else
      match step4Series domainName metadata keys finalDF cd with
      | some series => setDFCol finalDF cd.name series
      | none => finalDF
  if populated.cols.contains cd.name then
    setDFCol populated cd.name (enforceColType cd.colType (populated.col cd.name))
  else populated

/-- The functional strategy for one block (findings.py lines 49-268):
join keys, backbone construction, attribute broadcast, remaining columns
and type enforcement.  A block that builds no primary frame yields no
partial table. -/
def FindingsProcessor.processBlock (domainName : String)
    (metadata : List (String × MetaEntry)) (cols : List FColDef)
    (configKeys : List String) (dfLong : List Obs) : Option DF :=
  let joinKeys := blockJoinKeys configKeys
  let built := buildBackbone dfLong joinKeys cols
  if built.1.rows.isEmpty then none
  else
    let merged := joinAttributes joinKeys built.1 built.2
    some (cols.foldl (resolveRemainingCol domainName metadata configKeys) merged)

/-! ## Finding strategy processor (engine/classes/finding.py) -/

/-- A column config of the finding strategy: plain source shorthand or a
structured definition. -/
structure FgColDef where
  source : Option String := none
  literal : Option Cell := none
  targetType : Option String := none
  regexExtract : Option String := none
  prefixVal : Option String := none
deriving DecidableEq

/-- A finding-strategy column config. -/
inductive FgCfg where
  | src : String → FgCfg
  | full : FgColDef → FgCfg
deriving DecidableEq

/-- The structured view of a finding column config (finding.py lines 54-66). -/
def FgCfg.def : FgCfg → FgColDef
  | .src s => { source := some s }
  | .full d => d

/-- Whether a config is the structured dict form. -/
def FgCfg.isDict : FgCfg → Bool
  | .src _ => false
  | .full _ => true

/-- Python re.match with a literal pattern is an anchored prefix test; the
engine's regex filters are modelled for literal patterns, which no
verified claim exercises. -/
def reMatch (pat s : String) : Bool := strStartsWith s pat

/-- str.extract for an anchored pattern of the shape LITERAL(.*): the text
after the literal, or null when the pattern does not match.  No verified
claim exercises this step. -/
def regexExtract1 (pat s : String) : Cell :=
  if strEndsWith pat "(.*)" then
    let litPart : List Char := pat.data.dropLast.dropLast.dropLast.dropLast
    if listIsPrefix litPart s.data then .str ⟨s.data.drop litPart.length⟩ else .null
  else .null

/-- A block of the finding strategy mapping specification. -/
structure FBlock where
  formoid : List String := []
  itemGroupRegex : Option String := none
  itemOidRegex : Option String := none
  keys : Option (List String) := none
  columns : List (String × FgCfg) := []
deriving DecidableEq

/-- Resolution of one finding-strategy target column (finding.py lines
51-105).  A literal broadcasts; a source expression resolves against the
ItemOID / Value sentinels, the frame built so far, then the long record
columns, with optional regex extraction; when nothing resolves the series
stays None and the target column is NOT assigned. -/
def resolveFindingCol (sourceDf : List Obs) (fdf : DF) (targetCol : String)
    (cfg : FgCfg) : DF :=
  let d := cfg.def
  let n := fdf.rows.length
  let series : Option (List Cell) :=
    match d.literal with
    | some l => some (List.replicate n l)
    | none =>
        if srcTruthy d.source then
          let s := d.source.getD ""
          let base : Option (List Cell) :=
            if s = "ItemOID" then some (fdf.col "ItemOID")
            else if s = "Value" then some (fdf.col "Value")
            else if fdf.cols.contains s then some (fdf.col s)
            else if obsColumns.contains s then some (sourceDf.map (fun o => o.get s))
            else none
          match d.regexExtract, base with
          | some pat, some b => some (b.map (fun c => regexExtract1 pat (Cell.toStr c)))
          | _, _ => base
        else none
  let series :=
    match (if cfg.isDict then d.prefixVal else none), series with
    | some p, some b =>
        if p ≠ "" then some (b.map (fun c => Cell.str (p ++ Cell.toStr c))) else some b
    | _, s => s
  match series with
  | some b =>
      let b :=
        match d.targetType with
        | some "int" => b.map toNumericCell
        | some "str" => b.map (fun c => Cell.str c.toStr)
        | _ => b
      setDFCol fdf targetCol b
  | none => fdf

/-- Processing of one finding-strategy block (finding.py lines 8-111):
filter by form / item-group regex / item regex; build the base frame with
one row per remaining record (keys, ItemOID, Value; the optional Question
column is absent from the embedded record schema); resolve every target
column; finally project the frame to exactly the target columns — an
indexing step that raises a KeyError when some target column was never
assigned, aborting the block.  An empty filtered set skips the block
(ok none). -/
def FindingProcessor.processBlock (settings : FBlock) (dfLong : List Obs)
    (defaultKeys : List String) : Except String (Option DF) :=
  let afterForm : List Obs :=
    if settings.formoid.isEmpty then dfLong
    else dfLong.filter (fun o => settings.formoid.contains o.FormOID)
  let afterIg : List Obs :=
    match settings.itemGroupRegex with
    | some pat => afterForm.filter (fun o => reMatch pat o.ItemGroupOID)
    | none => afterForm
  let sourceDf : List Obs :=
    match settings.itemOidRegex with
    | some pat => afterIg.filter (fun o => reMatch pat o.ItemOID)
    | none => afterIg
  if sourceDf.isEmpty then .ok none
  else
    let keys := (settings.keys.getD defaultKeys)
    let baseCols := keys ++ ["ItemOID", "Value"]
    let fdf0 : DF := ⟨baseCols, sourceDf.map (fun o => baseCols.map (fun c => (c, o.get c)))⟩
    let fdf : DF := settings.columns.foldl
      (fun acc (tc : String × FgCfg) => resolveFindingCol sourceDf acc tc.1 tc.2) fdf0
    let colsToKeep : List String := settings.columns.map (fun tc => tc.1)
    if colsToKeep.all (fun c => fdf.cols.contains c) then
      .ok (some ⟨colsToKeep, fdf.rows.map (fun r => colsToKeep.map (fun c => (c, getCell r c)))⟩)
    else .error "KeyError: a target column was never assigned before the final projection"

/-! ## Concrete instances used by the scenario theorems and witnesses -/

/-- Three rows of one subject with event_order values 2, 1, 3 (spec
sequencing scenario). -/
def dfSeqScenario : DF :=
  ⟨["subject", "event_order"],
   [[("subject", .str "S1"), ("event_order", .int 2)],
    [("subject", .str "S1"), ("event_order", .int 1)],
    [("subject", .str "S1"), ("event_order", .int 3)]]⟩

/-- Record: subject S1, form F, item A1 with value X. -/
def obsA1 : Obs := ⟨"ST", "S1", "EV", "F", "IG", "1", "A1", .str "X"⟩

/-- Record: subject S1, form F, item A2 with value Y. -/
def obsA2 : Obs := ⟨"ST", "S1", "EV", "F", "IG", "1", "A2", .str "Y"⟩

/-- A duplicate record for the same (key, item) pair as obsA1, carrying a
second value. -/
def obsA1dup : Obs := ⟨"ST", "S1", "EV", "F", "IG", "1", "A1", .str "X2"⟩

/-- The pivot scenario block: keys=[subject], columns colA ← A1, colB ← A2. -/
def gblockPivot : GBlock :=
  { formoid := some "F", keys := some ["SubjectKey"],
    columns := [("colA", .src "A1"), ("colB", .src "A2")] }

/-- Backbone-alignment scenario record: key K1, form F1, item I1, value 70. -/
def obsB1 : Obs := ⟨"ST", "K1", "EV", "F1", "IG", "1", "I1", .str "70"⟩

/-- Backbone-alignment scenario record: key K1, form F1, item I2, value 170. -/
def obsB2 : Obs := ⟨"ST", "K1", "EV", "F1", "IG", "1", "I2", .str "170"⟩

/-- The test-code backbone column of the alignment scenario, filtered to
items I1 and I2. -/
def fcdTESTCD : FColDef :=
  { name := "FATESTCD", func := some "extract_value", formoid := ["F1"],
    itemoid := ["I1", "I2"] }

/-- The result backbone column of the alignment scenario, filtered to the
same two items. -/
def fcdORRES : FColDef :=
  { name := "FAORRES", func := some "extract_value", formoid := ["F1"],
    itemoid := ["I1", "I2"] }

/-- A finding-strategy block one of whose columns names a source that
exists nowhere. -/
def fblockMissingSource : FBlock :=
  { formoid := ["F"], keys := some ["SubjectKey"],
    columns := [("X", .src "NOPE")] }

/-- The strict value-mapping scenario's pivoted input column: the values
"1", "2", "3". -/
def pivMapScenario : DF :=
  ⟨["RACE_SRC"],
   [[("RACE_SRC", .str "1")], [("RACE_SRC", .str "2")], [("RACE_SRC", .str "3")]]⟩

/-- The strict value-mapping scenario's column config: map 1 to Y and 2 to
N with default literal U. -/
def cfgMapScenario : GCfg :=
  .full { source := some "RACE_SRC",
          valueMapping := [("1", .str "Y"), ("2", .str "N")],
          mappingDefault := some (.str "U") }

/-- A two-group table used to instantiate the per-group sequence theorem. -/
def dfTwoGroups : DF :=
  ⟨["USUBJID", "VISITNUM"],
   [[("USUBJID", .str "P1"), ("VISITNUM", .int 30)],
    [("USUBJID", .str "P2"), ("VISITNUM", .int 10)],
    [("USUBJID", .str "P1"), ("VISITNUM", .int 20)],
    [("USUBJID", .str "P1"), ("VISITNUM", .int 10)]]⟩

/-! ## Claim theorems -/

/-- C1: the spec states that the functional strategy merges all backbone
columns via a full outer join on (join keys + item identifier), so that
the TESTCD/ORRES scenario with items I1 → (WEIGHT, 70) and I2 →
(HEIGHT, 170) under one shared key yields exactly two aligned rows.  The
code instead merges the generated tables on the join keys alone — it
builds the ItemOID-keyed variant df_res_with_id, whose necessity its own
comments call CRITICAL, and then merges the plain df_res — so the two
two-row backbone tables produce a four-row cross product, pairing I1 with
170 and I2 with 70.  This theorem evaluates the embedded code at that
failing input. -/
theorem c1_backbone_merge_cross_product :
    (buildBackbone [obsB1, obsB2] (blockJoinKeys ["SubjectKey"]) [fcdTESTCD, fcdORRES]).1.rows =
      [[("SubjectKey", .str "K1"), ("FormOID", .str "F1"), ("FATESTCD", .str "I1"), ("FAORRES", .str "70")],
       [("SubjectKey", .str "K1"), ("FormOID", .str "F1"), ("FATESTCD", .str "I1"), ("FAORRES", .str "170")],
       [("SubjectKey", .str "K1"), ("FormOID", .str "F1"), ("FATESTCD", .str "I2"), ("FAORRES", .str "70")],
       [("SubjectKey", .str "K1"), ("FormOID", .str "F1"), ("FATESTCD", .str "I2"), ("FAORRES", .str "170")]]
    ∧ (FindingsProcessor.processBlock "FA" [] [fcdTESTCD, fcdORRES] ["SubjectKey"]
        [obsB1, obsB2]).map (fun df => df.rows.length) = some 4 :=
  ⟨by decide, by decide⟩

/-- C4: the sequence generator sorts by (grouping columns, sort columns),
assigns 1-based increasing integers within each group in sorted order and
scatters them back to the original row positions: for group=[subject],
sort_by=[event_order] and event_order values [2,1,3], the output column is
[2,1,3] at original positions 0,1,2 — each row's rank after sorting, not
its sorted position. -/
theorem c4_seq_scatter_back_scenario :
    ((applySeqRequest dfSeqScenario "ASEQ" ["subject"] ["event_order"]).1).rows.map
      (fun r => getCell r "ASEQ") = [Cell.int 2, Cell.int 1, Cell.int 3] := by decide

/-- C8: a pivot-strategy block pivots the filtered records on its key
columns against the item identifier, taking the first value for duplicate
(key, item) pairs; the scenario block with keys=[subject] and columns
colA ← A1, colB ← A2 over subject S1's records A1=X and A2=Y produces
exactly one row (subject S1 in the pivot index, colA=X, colB=Y), and a
duplicate (key, item) pair keeps its first value. -/
theorem c8_pivot_block_scenario :
    GeneralProcessor.processBlock "VS" gblockPivot [obsA1, obsA2] ["SubjectKey"]
      = some (⟨["colA", "colB"], [[("colA", .str "X"), ("colB", .str "Y")]]⟩, [])
    ∧ pivotTable [obsA1, obsA2] ["SubjectKey"]
      = ⟨["SubjectKey", "A1", "A2"],
         [[("SubjectKey", .str "S1"), ("A1", .str "X"), ("A2", .str "Y")]]⟩
    ∧ (pivotTable [obsA1, obsA1dup] ["SubjectKey"]).col "A1" = [.str "X"] :=
  ⟨by decide, by decide, by decide⟩

/-- C7: pivot-strategy processing and sequence generation are
deterministic — both are pure functions of their inputs in this embedding,
as the source iterates only over lists and dicts whose order is fixed by
the input, so identical inputs yield identical rows, column values and
sequence numbers on repeated runs. -/
theorem c7_processing_deterministic (dn : String) (b1 b2 : GBlock) (r1 r2 : List Obs)
    (k1 k2 : List String) (df1 df2 : DF) (t : String) (g s : List String)
    (hb : b1 = b2) (hr : r1 = r2) (hk : k1 = k2) (hdf : df1 = df2) :
    GeneralProcessor.processBlock dn b1 r1 k1 = GeneralProcessor.processBlock dn b2 r2 k2
    ∧ applySeqRequest df1 t g s = applySeqRequest df2 t g s := by
  subst hb; subst hr; subst hk; subst hdf; exact ⟨rfl, rfl⟩

/-- Witness for C7 at a concrete block, record list and table. -/
theorem c7_witness :
    GeneralProcessor.processBlock "VS" gblockPivot [obsA1] ["SubjectKey"]
      = GeneralProcessor.processBlock "VS" gblockPivot [obsA1] ["SubjectKey"]
    ∧ applySeqRequest dfSeqScenario "ASEQ" ["subject"] []
      = applySeqRequest dfSeqScenario "ASEQ" ["subject"] [] :=
  c7_processing_deterministic "VS" gblockPivot gblockPivot [obsA1] [obsA1]
    ["SubjectKey"] ["SubjectKey"] dfSeqScenario dfSeqScenario "ASEQ" ["subject"] []
    rfl rfl rfl rfl

/-- C9: a sequence request one of whose grouping columns is absent from
the assembled table emits a warning and is skipped entirely: the table is
returned unchanged, so the target column is never set and no row receives
a partial number. -/
theorem c9_seq_missing_group_skips (df : DF) (target : String)
    (group sortBy : List String) (c : String) (hc : c ∈ group)
    (hm : df.cols.contains c = false) :
    applySeqRequest df target group sortBy
      = (df, ["Warning: Group cols missing for GLOBAL SEQ " ++ target]) := by
  have hbool : (!df.cols.contains c) = true := by rw [hm]; rfl
  have hmem : c ∈ group.filter (fun c => !df.cols.contains c) :=
    List.mem_filter.mpr ⟨hc, hbool⟩
  have hne : (group.filter (fun c => !df.cols.contains c)) ≠ [] :=
    List.ne_nil_of_mem hmem
  have hie : (group.filter (fun c => !df.cols.contains c)).isEmpty = false := by
    cases hfe : group.filter (fun c => !df.cols.contains c) with
    | nil => exact absurd hfe hne
    | cons a l => rfl
  simp only [applySeqRequest]
  rw [hie]
  rfl

/-- Witness for C9: a request grouping on a column the table lacks. -/
theorem c9_witness :
    "USUBJID" ∈ ["USUBJID"]
    ∧ dfSeqScenario.cols.contains "USUBJID" = false
    ∧ applySeqRequest dfSeqScenario "ASEQ" ["USUBJID"] []
      = (dfSeqScenario, ["Warning: Group cols missing for GLOBAL SEQ " ++ "ASEQ"]) :=
  ⟨by decide, by decide,
    c9_seq_missing_group_skips dfSeqScenario "ASEQ" ["USUBJID"] [] "USUBJID"
      (by decide) (by decide)⟩

/-- C10: in the functional strategy's remaining-column step a configured
literal is tested for Python truthiness, so a falsy literal — the empty
string, 0 or False — is treated exactly as if no literal were configured
and the column falls through to the built-in defaults, metadata lookups or
the all-null fallback, while a truthy literal is broadcast. -/
theorem c10_falsy_literal_falls_through (dn : String)
    (md : List (String × MetaEntry)) (keys : List String) (fdf : DF)
    (cd : FColDef) (l : Cell) (hl : cd.literal = some l) :
    (l.truthy = false →
      step4Series dn md keys fdf cd
        = step4Series dn md keys fdf { cd with literal := none })
    ∧ (l.truthy = true →
      step4Series dn md keys fdf cd = some (List.replicate fdf.rows.length l)) := by
  constructor
  · intro h
    simp [step4Series, litTruthy, hl, h]
  · intro h
    simp [step4Series, litTruthy, hl, h]

/-- Witness for C10: an empty-string literal on a DOMAIN column falls
through to the domain-name default instead of broadcasting "". -/
theorem c10_witness :
    ({ name := "DOMAIN", literal := some (Cell.str "") : FColDef }).literal
        = some (Cell.str "")
    ∧ (Cell.str "").truthy = false
    ∧ step4Series "FA" [] [] dfSeqScenario { name := "DOMAIN", literal := some (Cell.str "") }
      = step4Series "FA" [] [] dfSeqScenario
          { ({ name := "DOMAIN", literal := some (Cell.str "") : FColDef }) with literal := none } :=
  ⟨rfl, by decide,
    (c10_falsy_literal_falls_through "FA" [] [] dfSeqScenario
      { name := "DOMAIN", literal := some (Cell.str "") } (Cell.str "") rfl).1 (by decide)⟩

/-- C3: a pivot-strategy value mapping configured with a default literal
(strict mode) produces zero nulls for every input series — known keys map,
everything else (unknown strings, non-strings, nulls) takes the default —
and the scenario mapping 1 ↦ Y, 2 ↦ N with default U over inputs
[1, 2, 3] yields [Y, N, U] through the full column pipeline. -/
theorem c3_strict_mapping_no_nulls :
    (∀ (dn tc : String) (vm : List (String × Cell)) (d : Cell) (ms : Option String)
      (piv fin : DF) (series : List Cell), vm ≠ [] → d ≠ Cell.null →
      ((applyValueMapping dn tc vm (some d) ms piv fin series).1.countP
        (fun c => decide (c = Cell.null))) = 0)
    ∧ (resolveSeries "DM" pivMapScenario DF.empty "SEX" cfgMapScenario).1
        = [.str "Y", .str "N", .str "U"] := by
  constructor
  · intro dn tc vm d ms piv fin series hvm hd
    have hvme : vm.isEmpty = false := by
      cases vm with
      | nil => exact absurd rfl hvm
      | cons a l => rfl
    simp only [applyValueMapping, hvme, Bool.false_eq_true, if_false]
    rw [List.countP_eq_zero]
    intro a ha
    simp only [List.mem_map] at ha
    obtain ⟨b, _, rfl⟩ := ha
    by_cases hb : b = Cell.null
    · simp [hb, hd]
    · simp [hb]
  · decide

/-- Witness for C3's universal part, at the scenario's mapping and default
over inputs containing an unknown key and a null. -/
theorem c3_witness :
    [("1", Cell.str "Y"), ("2", Cell.str "N")] ≠ ([] : List (String × Cell))
    ∧ Cell.str "U" ≠ Cell.null
    ∧ ((applyValueMapping "DM" "SEX" [("1", Cell.str "Y"), ("2", Cell.str "N")]
        (some (Cell.str "U")) none DF.empty DF.empty
        [Cell.str "1", Cell.str "3", Cell.null]).1.countP
          (fun c => decide (c = Cell.null))) = 0 :=
  ⟨by decide, by decide,
    c3_strict_mapping_no_nulls.1 "DM" "SEX" [("1", Cell.str "Y"), ("2", Cell.str "N")]
      (Cell.str "U") none DF.empty DF.empty [Cell.str "1", Cell.str "3", Cell.null]
      (by decide) (by decide)⟩

/-- C6 counterexample: the claim says a missing source column never aborts
a block, for every block and column definition of either strategy.  In the
finding strategy a column whose source resolves to nothing is silently
left unassigned, and the block's final projection to the target columns
then raises a KeyError, aborting the block: the embedded FindingProcessor
returns an error on this concrete block. -/
theorem c6_counterexample_finding_aborts :
    FindingProcessor.processBlock fblockMissingSource [obsA1] ["SubjectKey"]
      = Except.error "KeyError: a target column was never assigned before the final projection" := by
  rfl

/-- C6 amended: in the pivot (general) strategy a source expression found
neither in the pivoted table nor among the already-resolved target columns
yields exactly one non-fatal warning and an all-null base series (so the
target column is all nulls when no later transformation is configured, and
the block always completes); the finding strategy instead aborts the
block, per the counterexample. -/
theorem c6_amended_general_missing_source (dn tc : String) (piv fin : DF)
    (s : String) (hs : s ≠ "") (hp : piv.cols.contains s = false)
    (hf : fin.cols.contains s = false) :
    extractBase dn tc piv fin (some s) none
      = (List.replicate piv.rows.length Cell.null,
         ["Warning: Source column " ++ s ++ " not found for " ++ dn ++ "." ++ tc
           ++ ". Filling with NaN."]) := by
  have hp2 : ¬ s ∈ piv.cols := by simpa using hp
  have hf2 : ¬ s ∈ fin.cols := by simpa using hf
  simp [extractBase, srcTruthy, hs, hp2, hf2]

/-- Witness for C6's amended theorem at a concrete unresolvable source. -/
theorem c6_witness :
    ("NOPE" : String) ≠ ""
    ∧ (pivotTable [obsA1] ["SubjectKey"]).cols.contains "NOPE" = false
    ∧ DF.empty.cols.contains "NOPE" = false
    ∧ extractBase "DM" "X" (pivotTable [obsA1] ["SubjectKey"]) DF.empty (some "NOPE") none
      = (List.replicate (pivotTable [obsA1] ["SubjectKey"]).rows.length Cell.null,
         ["Warning: Source column " ++ "NOPE" ++ " not found for " ++ "DM" ++ "." ++ "X"
           ++ ". Filling with NaN."]) :=
  ⟨by decide, by decide, by decide,
    c6_amended_general_missing_source "DM" "X" (pivotTable [obsA1] ["SubjectKey"])
      DF.empty "NOPE" (by decide) (by decide) (by decide)⟩

/-! ## Counting lemmas for the outer-merge row bounds (claim C5) -/

/-- A flatMap whose pieces are all nonempty has at least one row per input. -/
theorem flatMap_length_ge {α β : Type} (l : List α) (f : α → List β)
    (h : ∀ a ∈ l, 1 ≤ (f a).length) : l.length ≤ (l.flatMap f).length := by
  induction l with
  | nil => simp
  | cons a t ih =>
      simp only [List.flatMap_cons, List.length_append, List.length_cons]
      have h1 := h a (List.mem_cons_self a t)
      have h2 := ih (fun x hx => h x (List.mem_cons_of_mem a hx))
      omega

/-- The length of a flatMap is the sum of the piece lengths. -/
theorem length_flatMap_eq_sum {α β : Type} (l : List α) (f : α → List β) :
    (l.flatMap f).length = (l.map (fun a => (f a).length)).sum := by
  induction l with
  | nil => rfl
  | cons a t ih => simp [List.flatMap_cons, ih]

/-- Pointwise bounds add up over a sum of mapped values. -/
theorem sum_map_le_sum_map {α : Type} (l : List α) (f g : α → Nat)
    (h : ∀ a ∈ l, f a ≤ g a) : (l.map f).sum ≤ (l.map g).sum := by
  induction l with
  | nil => simp
  | cons a t ih =>
      simp only [List.map_cons, List.sum_cons]
      exact Nat.add_le_add (h a (by simp)) (ih (fun x hx => h x (by simp [hx])))

/-- Sums of mapped values distribute over pointwise addition. -/
theorem sum_map_add_distrib {α : Type} (l : List α) (f g : α → Nat) :
    (l.map (fun a => f a + g a)).sum = (l.map f).sum + (l.map g).sum := by
  induction l with
  | nil => rfl
  | cons a t ih =>
      simp only [List.map_cons, List.sum_cons, ih]
      omega

/-- The length of a filter as a sum of indicator values. -/
theorem length_filter_eq_sum_ite {α : Type} (r : List α) (q : α → Bool) :
    (r.filter q).length = (r.map (fun b => if q b then 1 else 0)).sum := by
  induction r with
  | nil => rfl
  | cons b t ih =>
      by_cases hb : q b <;> simp [List.filter_cons, hb, ih] <;> omega

/-- Double counting of matching pairs: summing match counts over the left
list equals summing them over the right list. -/
theorem sum_filter_lengths_comm {α : Type} (l r : List α) (p : α → α → Bool) :
    (l.map (fun a => (r.filter (fun b => p a b)).length)).sum
      = (r.map (fun b => (l.filter (fun a => p a b)).length)).sum := by
  induction l with
  | nil => simp
  | cons a t ih =>
      simp only [List.map_cons, List.sum_cons, ih]
      have hsplit : ∀ b, ((a :: t).filter (fun x => p x b)).length
          = (if p a b then 1 else 0) + (t.filter (fun x => p x b)).length := by
        intro b
        by_cases hpb : p a b <;> simp [List.filter_cons, hpb] <;> omega
      have hr : (r.map (fun b => ((a :: t).filter (fun x => p x b)).length)).sum
          = (r.map (fun b =>
              (if p a b then 1 else 0) + (t.filter (fun x => p x b)).length)).sum := by
        congr 1
        exact List.map_congr_left (fun b _ => hsplit b)
      rw [hr, sum_map_add_distrib, ← length_filter_eq_sum_ite]

/-- A filter's length is bounded by any mapped sum whose entries dominate
the filter's indicator. -/
theorem filter_length_le_sum {α : Type} (r : List α) (p : α → Bool) (h : α → Nat)
    (hp : ∀ b ∈ r, p b = true → 1 ≤ h b) :
    (r.filter p).length ≤ (r.map h).sum := by
  induction r with
  | nil => simp
  | cons b t ih =>
      have ih2 := ih (fun x hx hpx => hp x (by simp [hx]) hpx)
      by_cases hb : p b = true
      · have h1 := hp b (by simp) hb
        simp only [List.filter_cons, hb, if_true, List.length_cons,
          List.map_cons, List.sum_cons]
        omega
      · simp only [List.filter_cons, List.map_cons, List.sum_cons]
        rw [if_neg (by simp [hb])]
        omega

/-- A satisfied existential over a list makes the filter nonempty. -/
theorem any_filter_pos {α : Type} (l : List α) (q : α → Bool)
    (h : l.any q = true) : 1 ≤ (l.filter q).length := by
  obtain ⟨x, hx, hqx⟩ := List.any_eq_true.mp h
  have hm : x ∈ l.filter q := List.mem_filter.mpr ⟨hx, hqx⟩
  exact List.length_pos.mpr (List.ne_nil_of_mem hm)

/-- Every left row contributes at least one merged row. -/
theorem one_le_mergeRowMatches (ks : List String) (r : List Row) (a : Row) :
    1 ≤ (mergeRowMatches ks r a).length := by
  simp only [mergeRowMatches]
  split
  · simp
  · rename_i hemp
    rw [List.length_map]
    cases hf : r.filter (fun b => sameKey ks a b) with
    | nil => exact absurd (by simp [hf]) hemp
    | cons x xs => simp [hf]

/-- A full outer merge keeps at least every left row. -/
theorem length_le_mergeOuterRows_left (ks : List String) (l r : List Row) :
    l.length ≤ (mergeOuterRows ks l r).length := by
  simp only [mergeOuterRows, List.length_append]
  have h := flatMap_length_ge l (mergeRowMatches ks r)
    (fun a _ => one_le_mergeRowMatches ks r a)
  omega

/-- A full outer merge keeps at least every right row. -/
theorem length_le_mergeOuterRows_right (ks : List String) (l r : List Row) :
    r.length ≤ (mergeOuterRows ks l r).length := by
  have hperm := List.filter_append_perm
    (fun b => l.any (fun a => sameKey ks a b)) r
  have hlen : (r.filter (fun b => l.any (fun a => sameKey ks a b))).length
      + (r.filter (fun b => !(l.any (fun a => sameKey ks a b)))).length
      = r.length := by
    have := hperm.length_eq
    simpa using this
  simp only [mergeOuterRows, List.length_append]
  have h1 : (r.filter (fun b => l.any (fun a => sameKey ks a b))).length
      ≤ (l.flatMap (mergeRowMatches ks r)).length := by
    rw [length_flatMap_eq_sum]
    have h2 : (l.map (fun a => (r.filter (fun b => sameKey ks a b)).length)).sum
        ≤ (l.map (fun a => (mergeRowMatches ks r a).length)).sum := by
      refine sum_map_le_sum_map l _ _ (fun a _ => ?_)
      simp only [mergeRowMatches]
      split
      · rename_i hemp
        have hne : r.filter (fun b => sameKey ks a b) = [] := by
          cases hf : r.filter (fun b => sameKey ks a b) with
          | nil => rfl
          | cons x xs => rw [hf] at hemp; exact absurd hemp (by simp)
        simp [hne]
      · simp [List.length_map]
    have h3 : (r.filter (fun b => l.any (fun a => sameKey ks a b))).length
        ≤ (l.map (fun a => (r.filter (fun b => sameKey ks a b)).length)).sum := by
      rw [sum_filter_lengths_comm l r (fun a b => sameKey ks a b)]
      exact filter_length_le_sum r _ _ (fun b _ hb => any_filter_pos l _ hb)
    exact le_trans h3 h2
  omega

/-- One backbone merge step never shrinks the primary frame. -/
theorem mergeBackboneStep_le_left (ks : List String) (p d : DF) :
    p.rows.length ≤ (mergeBackboneStep ks p d).rows.length := by
  simp only [mergeBackboneStep]
  split
  · rename_i h
    have : p.rows = [] := by
      cases hf : p.rows with
      | nil => rfl
      | cons x xs => rw [hf] at h; exact absurd h (by simp)
    simp [this]
  · exact length_le_mergeOuterRows_left ks p.rows d.rows

/-- One backbone merge step keeps at least every row of the incoming
generated table. -/
theorem mergeBackboneStep_le_right (ks : List String) (p d : DF) :
    d.rows.length ≤ (mergeBackboneStep ks p d).rows.length := by
  simp only [mergeBackboneStep]
  split
  · exact le_refl _
  · exact length_le_mergeOuterRows_right ks p.rows d.rows

/-- The functional column loop never shrinks the primary frame. -/
theorem backboneStep_mono (dfLong : List Obs) (ks : List String)
    (st : DF × List DF) (cd : FColDef) :
    st.1.rows.length ≤ (backboneStep dfLong ks st cd).1.rows.length := by
  simp only [backboneStep]
  split
  · exact le_refl _
  · split
    · split
      · exact le_refl _
      · split
        · split
          · exact mergeBackboneStep_le_left ks st.1 _
          · exact le_refl _
        · split
          · exact mergeBackboneStep_le_left ks st.1 _
          · exact le_refl _
    · exact le_refl _

/-- Folding the functional column loop never shrinks the primary frame. -/
theorem foldl_backboneStep_mono (dfLong : List Obs) (ks : List String)
    (cols : List FColDef) (st : DF × List DF) :
    st.1.rows.length ≤ (cols.foldl (backboneStep dfLong ks) st).1.rows.length := by
  induction cols generalizing st with
  | nil => simp
  | cons c t ih =>
      rw [List.foldl_cons]
      exact le_trans (backboneStep_mono dfLong ks st c) (ih _)

/-- C5: in the functional strategy the merged backbone table has at least
as many rows as every individual backbone column's generated table — the
outer join loses no backbone rows — for every record store, key
configuration and set of column definitions.  (An empty generated table is
skipped with a warning and bounds the merged table trivially.) -/
theorem c5_backbone_merge_row_monotone (dfLong : List Obs)
    (configKeys : List String) (cols : List FColDef) (cd : FColDef)
    (hmem : cd ∈ cols)
    (hfn : cd.func = some "func_fa" ∨ cd.func = some "extract_value")
    (hb : isBackboneName cd.name = true) :
    (backboneDfRes dfLong (blockJoinKeys configKeys) cd).rows.length
      ≤ (buildBackbone dfLong (blockJoinKeys configKeys) cols).1.rows.length := by
  unfold buildBackbone
  generalize hks : blockJoinKeys configKeys = ks at *
  suffices h : ∀ (cs : List FColDef) (st : DF × List DF), cd ∈ cs →
      (backboneDfRes dfLong ks cd).rows.length
        ≤ (cs.foldl (backboneStep dfLong ks) st).1.rows.length by
    exact h cols (DF.empty, []) hmem
  intro cs
  induction cs with
  | nil => intro st h; exact absurd h (List.not_mem_nil cd)
  | cons c t ih =>
      intro st hmem2
      rw [List.foldl_cons]
      rcases List.mem_cons.mp hmem2 with heq | hmem3
      · subst heq
        refine le_trans ?_ (foldl_backboneStep_mono dfLong ks t _)
        by_cases hemp : (backboneDfRes dfLong ks cd).rows.isEmpty
        · have : (backboneDfRes dfLong ks cd).rows = [] := by
            cases hf : (backboneDfRes dfLong ks cd).rows with
            | nil => rfl
            | cons x xs => rw [hf] at hemp; exact absurd hemp (by simp)
          simp [this]
        · have hempb : (backboneDfRes dfLong ks cd).rows.isEmpty = false := by
            rwa [Bool.not_eq_true] at hemp
          rcases hfn with h | h <;>
            simp [backboneStep, h, hempb, hb] <;>
            exact mergeBackboneStep_le_right ks st.1 _
      · exact ih _ hmem3

/-- Witness for C5: the ORRES backbone column of the alignment scenario is
not shrunk by the merge. -/
theorem c5_witness :
    fcdORRES ∈ [fcdTESTCD, fcdORRES]
    ∧ (fcdORRES.func = some "func_fa" ∨ fcdORRES.func = some "extract_value")
    ∧ isBackboneName fcdORRES.name = true
    ∧ (backboneDfRes [obsB1, obsB2] (blockJoinKeys ["SubjectKey"]) fcdORRES).rows.length
      ≤ (buildBackbone [obsB1, obsB2] (blockJoinKeys ["SubjectKey"])
          [fcdTESTCD, fcdORRES]).1.rows.length :=
  ⟨by decide, by decide, by decide,
    c5_backbone_merge_row_monotone [obsB1, obsB2] ["SubjectKey"]
      [fcdTESTCD, fcdORRES] fcdORRES (by decide) (by decide) (by decide)⟩

/-! ## Permutation and cumcount lemmas for the sequence generator (claim C2) -/

/-- Inserting into a sorted list permutes to consing. -/
theorem insSorted_perm (le : α → α → Bool) (x : α) (l : List α) :
    (insSorted le x l).Perm (x :: l) := by
  induction l with
  | nil => exact List.Perm.refl _
  | cons y ys ih =>
      simp only [insSorted]
      split
      · exact (ih.cons y).trans (List.Perm.swap x y ys)
      · exact List.Perm.refl _

/-- The insertion-sort fold permutes to appending. -/
theorem foldl_insSorted_perm (le : α → α → Bool) (l acc : List α) :
    (l.foldl (fun acc x => insSorted le x acc) acc).Perm (acc ++ l) := by
  induction l generalizing acc with
  | nil => simp
  | cons x t ih =>
      rw [List.foldl_cons]
      refine (ih (insSorted le x acc)).trans ?_
      refine (((insSorted_perm le x acc).append_right t)).trans ?_
      exact List.perm_middle.symm

/-- The stable sort is a permutation of its input. -/
theorem sortStable_perm (le : α → α → Bool) (l : List α) :
    (sortStable le l).Perm l := by
  simpa using foldl_insSorted_perm le l []

/-- cumcounts preserves length. -/
theorem cumcounts_length (seen ks : List (List Cell)) :
    (cumcounts seen ks).length = ks.length := by
  induction ks generalizing seen with
  | nil => rfl
  | cons k t ih => simp [cumcounts, ih]

/-- Reading back the column just written. -/
theorem setCol_get (r : Row) (c : String) (v : Cell) :
    getCell (setCol r c v) c = v := by
  induction r with
  | nil => simp [setCol, getCell, List.lookup]
  | cons p t ih =>
      obtain ⟨c', v'⟩ := p
      by_cases hc : c' = c
      · simp [setCol, hc, getCell, List.lookup]
      · simp only [setCol, hc, if_false, getCell, List.lookup]
        have hbe : (c == c') = false := by
          simpa using (Ne.symm hc)
        rw [hbe]
        exact ih

/-- Association lookup over a zip with duplicate-free keys finds each
zipped pair. -/
theorem zip_lookup_of_nodup (ks : List Nat) (vs : List β) (hnd : ks.Nodup) :
    ∀ a b, (a, b) ∈ ks.zip vs → (ks.zip vs).lookup a = some b := by
  induction ks generalizing vs with
  | nil => intro a b hp; simp at hp
  | cons k kt ih =>
      intro a b hp
      cases vs with
      | nil => simp at hp
      | cons v vt =>
          rw [List.zip_cons_cons] at hp ⊢
          rcases List.mem_cons.mp hp with heq | hp2
          · rw [Prod.mk.injEq] at heq
            obtain ⟨rfl, rfl⟩ := heq
            simp [List.lookup]
          · have ha : a ∈ kt := (List.of_mem_zip hp2).1
            have hk : (a == k) = false := by
              have hne : a ≠ k := by
                intro he
                rw [he] at ha
                exact (List.nodup_cons.mp hnd).1 ha
              simpa using hne
            simp only [List.lookup]
            rw [hk]
            exact ih vt (List.nodup_cons.mp hnd).2 a b hp2

/-- Zipping the group keys of position-tagged rows with their scattered
values and filtering on one key is filtering the rows on that key. -/
theorem zipped_key_values (K : Row → List Cell) (W : Nat → Cell) (g : List Cell) :
    ∀ (idx : List (Nat × Row)),
    (((idx.map (fun p => K p.2)).zip (idx.map (fun p => W p.1))).filter
        (fun p => decide (p.1 = g))).map Prod.snd
      = (idx.filter (fun p => decide (K p.2 = g))).map (fun p => W p.1) := by
  intro idx
  induction idx with
  | nil => rfl
  | cons p t ih =>
      simp only [List.map_cons, List.zip_cons_cons]
      by_cases hk : K p.2 = g
      · rw [List.filter_cons_of_pos (by simp [hk]),
          List.filter_cons_of_pos (by simp [hk])]
        simp only [List.map_cons]
        rw [ih]
      · rw [List.filter_cons_of_neg (by simp [hk]),
          List.filter_cons_of_neg (by simp [hk])]
        exact ih

/-- When every zipped element's scattered value is determined by its
attached count, mapping the values over a key filter is mapping the counts. -/
theorem filtered_values_by_count (co : Option Nat → Cell) (K : Row → List Cell)
    (g : List Cell) :
    ∀ (zp : List ((Nat × Row) × Option Nat)) (V : Nat → Cell),
    (∀ e ∈ zp, V e.1.1 = co e.2) →
    ((zp.map Prod.fst).filter (fun p => decide (K p.2 = g))).map (fun p => V p.1)
      = ((zp.filter (fun e => decide (K e.1.2 = g))).map Prod.snd).map co := by
  intro zp
  induction zp with
  | nil => intro V _; rfl
  | cons e t ih =>
      intro V hv
      simp only [List.map_cons]
      by_cases hk : K e.1.2 = g
      · rw [List.filter_cons_of_pos (by simp [hk]),
          List.filter_cons_of_pos (by simp [hk])]
        simp only [List.map_cons]
        rw [hv e (by simp), ih V (fun x hx => hv x (by simp [hx]))]
      · rw [List.filter_cons_of_neg (by simp [hk]),
          List.filter_cons_of_neg (by simp [hk])]
        exact ih V (fun x hx => hv x (by simp [hx]))

/-- The cumcounts attached to the rows of one non-null group key, read in
order, are consecutive starting from the occurrences already seen. -/
theorem cumcounts_zip_filter (group : List String) (g : List Cell)
    (hg : g.contains Cell.null = false) :
    ∀ (srt : List (Nat × Row)) (seen : List (List Cell)),
    ((srt.zip (cumcounts seen (srt.map (fun p => keyOf group p.2)))).filter
        (fun e => decide (keyOf group e.1.2 = g))).map Prod.snd
      = (List.range' (seen.count g)
          ((srt.map (fun p => keyOf group p.2)).count g)).map some := by
  intro srt
  induction srt with
  | nil => intro seen; simp [cumcounts]
  | cons p t ih =>
      intro seen
      simp only [List.map_cons, cumcounts, List.zip_cons_cons]
      by_cases hk : keyOf group p.2 = g
      · rw [List.filter_cons_of_pos (by simp [hk])]
        simp only [List.map_cons]
        rw [hk, hg]
        simp only [Bool.false_eq_true, if_false]
        rw [ih (g :: seen), List.count_cons_self, List.count_cons_self,
          List.range'_succ]
        simp
      · rw [List.filter_cons_of_neg (by simp [hk]), ih (keyOf group p.2 :: seen),
          List.count_cons_of_ne (Ne.symm hk), List.count_cons_of_ne (Ne.symm hk)]

/-- Core of claim C2, stated over an arbitrary reordering srt of the
position-tagged rows idx: pairing each original row's group key with its
scattered-back sequence value, the values of the rows of one (non-null)
group form exactly the integers 1..n for n the group's row count. -/
theorem seq_core (group : List String) (idx srt : List (Nat × Row))
    (hperm : srt.Perm idx) (hnd : (idx.map Prod.fst).Nodup)
    (asg : List (Nat × Option Nat))
    (hasg : asg = (srt.map Prod.fst).zip
      (cumcounts [] (srt.map (fun p => keyOf group p.2))))
    (g : List Cell) (hg : g.contains Cell.null = false) :
    ((((idx.map (fun p => keyOf group p.2)).zip
        (idx.map (fun p => seqCellOf asg p.1))).filter
        (fun p => decide (p.1 = g))).map Prod.snd).Perm
      ((List.range ((idx.map (fun p => keyOf group p.2)).count g)).map
        (fun (i : Nat) => Cell.int ((i : Int) + 1))) := by
  have hlen : srt.length
      ≤ (cumcounts [] (srt.map (fun p => keyOf group p.2))).length := by
    rw [cumcounts_length, List.length_map]
  have hndsrt : (srt.map Prod.fst).Nodup :=
    ((hperm.map Prod.fst).nodup_iff).mpr hnd
  rw [zipped_key_values (keyOf group) (seqCellOf asg) g idx]
  refine ((hperm.symm.filter _).map _).trans ?_
  have helem : ∀ e ∈ (srt.zip (cumcounts [] (srt.map (fun p => keyOf group p.2)))),
      seqCellOf asg e.1.1
        = (fun oc => match oc with
           | some c => Cell.int ((c : Int) + 1)
           | none => Cell.null) e.2 := by
    intro e he
    have hmem : (Prod.map Prod.fst id) e
        ∈ ((srt.zip (cumcounts [] (srt.map (fun p => keyOf group p.2)))).map
            (Prod.map Prod.fst id)) :=
      List.mem_map_of_mem (Prod.map Prod.fst id) he
    rw [← List.zip_map_left] at hmem
    have hlook : asg.lookup e.1.1 = some e.2 := by
      rw [hasg]
      exact zip_lookup_of_nodup (srt.map Prod.fst) _ hndsrt e.1.1 e.2 hmem
    simp only [seqCellOf, hlook]
    cases e.2 with
    | none => rfl
    | some c => rfl
  have hB := filtered_values_by_count
    (fun oc => match oc with
     | some c => Cell.int ((c : Int) + 1)
     | none => Cell.null)
    (keyOf group) g
    (srt.zip (cumcounts [] (srt.map (fun p => keyOf group p.2))))
    (seqCellOf asg) helem
  rw [List.map_fst_zip _ _ hlen] at hB
  rw [hB, cumcounts_zip_filter group g hg srt [], List.map_map]
  have hcount : (srt.map (fun p => keyOf group p.2)).count g
      = (idx.map (fun p => keyOf group p.2)).count g := by
    unfold List.count
    exact (hperm.map _).countP_eq _
  rw [List.count_nil, hcount, List.range_eq_range']
  exact List.Perm.of_eq rfl

/-- C2: for every assembled table and every sequence request whose
grouping columns all exist in the table, the generated sequence column
holds, within each group (each non-null grouping-key value), a permutation
of 1..n for n the group's row count — equivalently the values are 1-based,
strictly increasing with no gaps once read in sorted order, and their
maximum equals the group's row count. -/
theorem c2_seq_values_complete_per_group (df : DF) (target : String)
    (group sortBy : List String)
    (hall : ∀ c ∈ group, df.cols.contains c = true)
    (g : List Cell) (hg : g.contains Cell.null = false) :
    ((((df.rows.map (keyOf group)).zip
        (((applySeqRequest df target group sortBy).1).rows.map
          (fun r => getCell r target))).filter
        (fun p => decide (p.1 = g))).map Prod.snd).Perm
      ((List.range ((df.rows.map (keyOf group)).count g)).map
        (fun (i : Nat) => Cell.int ((i : Int) + 1))) := by
  have hfe : group.filter (fun c => !df.cols.contains c) = [] := by
    rw [List.filter_eq_nil_iff]
    intro c hc
    simpa using hall c hc
  have hie : (group.filter (fun c => !df.cols.contains c)).isEmpty = true := by
    rw [hfe]; rfl
  have hout : ((applySeqRequest df target group sortBy).1).rows
      = df.rows.enum.map (fun p => setCol p.2 target
          (seqCellOf (seqAssignments df.rows group
            (if !sortBy.isEmpty && sortBy.all (fun c => df.cols.contains c)
             then group ++ sortBy else group)) p.1)) := by
    simp only [applySeqRequest]
    rw [hie]
    rfl
  have hout2 : (df.rows.enum.map (fun p => setCol p.2 target
        (seqCellOf (seqAssignments df.rows group
          (if !sortBy.isEmpty && sortBy.all (fun c => df.cols.contains c)
           then group ++ sortBy else group)) p.1))).map (fun r => getCell r target)
      = df.rows.enum.map (fun p => seqCellOf (seqAssignments df.rows group
          (if !sortBy.isEmpty && sortBy.all (fun c => df.cols.contains c)
           then group ++ sortBy else group)) p.1) := by
    rw [List.map_map]
    exact List.map_congr_left (fun p _ => setCol_get _ _ _)
  have hkeys : df.rows.map (keyOf group)
      = df.rows.enum.map (fun p => keyOf group p.2) := by
    conv_lhs => rw [← List.enum_map_snd df.rows]
    rw [List.map_map]
    rfl
  have hndidx : (df.rows.enum.map Prod.fst).Nodup := by
    rw [List.enum_map_fst]
    exact List.nodup_range _
  rw [hout, hout2, hkeys]
  exact seq_core group df.rows.enum _ (sortStable_perm _ _) hndidx
    (seqAssignments df.rows group
      (if !sortBy.isEmpty && sortBy.all (fun c => df.cols.contains c)
       then group ++ sortBy else group)) rfl g hg

/-- Witness for C2 on a concrete two-group table: the three rows of
subject P1 receive the values 1..3 (as a permutation at their original
positions). -/
theorem c2_witness :
    (∀ c ∈ ["USUBJID"], dfTwoGroups.cols.contains c = true)
    ∧ ([Cell.str "P1"] : List Cell).contains Cell.null = false
    ∧ ((((dfTwoGroups.rows.map (keyOf ["USUBJID"])).zip
        (((applySeqRequest dfTwoGroups "VSSEQ" ["USUBJID"] ["VISITNUM"]).1).rows.map
          (fun r => getCell r "VSSEQ"))).filter
        (fun p => decide (p.1 = [Cell.str "P1"]))).map Prod.snd).Perm
      ((List.range ((dfTwoGroups.rows.map (keyOf ["USUBJID"])).count
          [Cell.str "P1"])).map (fun (i : Nat) => Cell.int ((i : Int) + 1))) :=
  ⟨by decide, by decide,
    c2_seq_values_complete_per_group dfTwoGroups "VSSEQ" ["USUBJID"] ["VISITNUM"]
      (by decide) [Cell.str "P1"] (by decide)⟩
